import Mathlib

/-!
# Verification of the price-memory-spider task/alert pipeline

Shallow embedding of the task scheduling and price-alert evaluation
pipeline of the repository (the FastAPI application in `main.py` and the
services under `src/`), together with theorems settling the specification
claims about it.

Modelling conventions:

* Timestamps: the code stores ISO-8601 UTC strings (`now_iso()`), compares
  them chronologically (via `datetime.fromisoformat` or lexicographic string
  comparison, which agree for this format) and takes the `[:16]` prefix for
  the minute-level coalescing window.  We embed an instant as a `Nat`
  (seconds); lexicographic comparison of ISO strings becomes `≤` on `Nat`
  and equality of the `[:16]` prefixes becomes equality of `t / 60`.
* Prices: Python floats are embedded as `ℚ` (the arithmetic appearing in
  the claims is exact decimal arithmetic).
* Database tables are lists of rows in insertion order; an autoincrement
  id of a fresh row is `length + 1` of the table (the previously inserted
  rows).  `order("created_at", desc=True).limit(1)` on the `prices` table
  is embedded as the maximum of `created_at` over the matching rows, with
  the later-inserted row winning ties.
* External delivery (SMTP / webhook) is an oracle parameter
  `Deliver : String → Option String → Except String Unit`; an `Except.error`
  is a raised exception, caught by the caller exactly where the Python code
  has a `try/except`.
-/

namespace PriceSpider

/-- Instants in seconds (embedding of ISO-8601 UTC timestamp strings). -/
abbrev Time := Nat

/-- Prices (embedding of Python floats by exact rationals). -/
abbrev Price := ℚ

/-- The minute-level coalescing key: `str(created_at)[:16]` of an ISO
timestamp determines exactly the calendar minute, i.e. `t / 60`. -/
def minuteOf (t : Time) : Nat := t / 60

/-- Embedding of Python `x or default` on an optional string (`None` and
the empty string are falsy). -/
def orDefaultStr (o : Option String) (d : String) : String :=
  match o with
  | none => d
  | some s => if s = "" then d else s

/-- Embedding of `int(x or 60)` on the `cooldown_minutes` column (`None`
and `0` are falsy, so both fall back to the default `60`). -/
def orDefaultNat (o : Option Nat) (d : Nat) : Nat :=
  match o with
  | none => d
  | some n => if n = 0 then d else n

/-- Truthiness of an optional string (Python `if a.get("target"):`). -/
def strTruthy (o : Option String) : Bool :=
  match o with
  | none => false
  | some s => s ≠ ""

/-- Row of the `tasks` table. -/
structure Task where
  id : Nat
  productId : Option Nat
  status : String
  priority : Int
  scheduledAt : Time
  createdAt : Time
  updatedAt : Time
  startedAt : Option Time
  completedAt : Option Time
  retryCount : Nat
  resultMessage : Option String
  sourceUrl : Option String
deriving Repr, DecidableEq

/-- Row of the `products` table (the fields the pipeline touches). -/
structure Product where
  id : Nat
  url : Option String
  updatedAt : Time
deriving Repr, DecidableEq

/-- Row of the `prices` table: the observation insert in `execute_task`
(`main.py` line 1342) writes exactly `product_id`, `price`, `created_at`. -/
structure PriceObs where
  productId : Nat
  price : Price
  createdAt : Time
deriving Repr, DecidableEq

/-- Row of the `alerts` table. -/
structure AlertRule where
  id : Nat
  userId : Nat
  productId : Nat
  ruleType : String
  threshold : Option Price
  percent : Option Price
  channel : Option String
  cooldownMinutes : Option Nat
  status : String
  lastTriggeredAt : Option Time
  target : Option String
  updatedAt : Time
deriving Repr, DecidableEq

/-- Row of the `alert_events` table. -/
structure AlertEvent where
  id : Nat
  alertId : Nat
  productId : Nat
  userId : Nat
  price : Price
  createdAt : Time
  message : String
  channel : Option String
  pushId : Option Nat
  status : String
  error : Option String
  attempt : Nat
deriving Repr, DecidableEq

/-- Row of the `pushes` table (in-app notifications). -/
structure Push where
  id : Nat
  senderId : Option Nat
  recipientId : Option Nat
  productId : Nat
  message : String
  status : String
  createdAt : Time
deriving Repr, DecidableEq

/-- The persistent state the pipeline mutates. -/
structure DB where
  tasks : List Task
  products : List Product
  prices : List PriceObs
  alerts : List AlertRule
  events : List AlertEvent
  pushes : List Push
deriving Repr, DecidableEq

/-- Delivery oracle standing for `send_email` / `send_webhook`: given the
channel and the target, either returns normally or raises (an
`Except.error` with the exception's message). -/
abbrev Deliver := String → Option String → Except String Unit

/-! ## Task queue (`src/dao/supabase_repo.py`) -/

/-- Embedding of `SupabaseRepo.get_pending_tasks` (lines 55–65): select rows of `tasks`
with `status = "pending"`, order by `scheduled_at` ascending, take `limit`
rows.  The query has no filter on `scheduled_at <= now` and no ordering by
priority or id; `insertionSort` is a stable sort standing for the
database's order-by. -/
def getPendingTasks (tasks : List Task) (limit : Nat) : List Task :=
  ((tasks.filter (fun t => t.status = "pending")).insertionSort
    (fun a b => a.scheduledAt ≤ b.scheduledAt)).take limit

/-- Embedding of `SupabaseRepo.mark_task_running` (lines 67–72): update the row with the
given id to `status = "running"`, set `started_at` (and `source_url` when
provided).  The update is keyed on the id alone — there is no condition on
the current status. -/
def markTaskRunning (tasks : List Task) (taskId : Nat) (now : Time)
    (sourceUrl : Option String) : List Task :=
  tasks.map fun t =>
    if t.id = taskId then
      { t with
        status := "running"
        startedAt := some now
        sourceUrl := if strTruthy sourceUrl then sourceUrl else t.sourceUrl }
    else t

/-- Embedding of `SupabaseRepo.mark_task_result` (lines 74–79): update the row with the
given id to the given status, set `completed_at`, and set `result_message`
when the message is truthy (non-empty).  Again keyed on the id alone. -/
def markTaskResult (tasks : List Task) (taskId : Nat) (status : String)
    (message : Option String) (now : Time) : List Task :=
  tasks.map fun t =>
    if t.id = taskId then
      { t with
        status := status
        completedAt := some now
        resultMessage :=
          match message with
          | none => t.resultMessage
          | some m => if m = "" then t.resultMessage else some m }
    else t

/-! ## Price store (`main.py` `execute_task`, lines 1330–1343) -/

/-- Embedding of `SB.table("prices").select(...).eq("product_id", pid)
.order("created_at", desc=True).limit(1)`: the latest stored observation
for the product (maximal `created_at`, later-inserted row winning ties). -/
def latestPriceRow (prices : List PriceObs) (pid : Nat) : Option PriceObs :=
  prices.foldl
    (fun acc o =>
      if o.productId = pid then
        match acc with
        | none => some o
        | some b => if b.createdAt ≤ o.createdAt then some o else some b
      else acc)
    none

/-- The duplicate-coalescing insert of `execute_task` (lines 1336–1342):
fetch the latest observation; insert the new row unless it has the same
price as the previous one and falls in the same minute
(`str(created_at)[:16] == now[:16]`). -/
def recordPriceObs (prices : List PriceObs) (pid : Nat) (price : Price)
    (now : Time) : List PriceObs :=
  match latestPriceRow prices pid with
  | none => prices ++ [⟨pid, price, now⟩]
  | some prev =>
      if prev.price = price ∧ minuteOf prev.createdAt = minuteOf now then
        prices
      else prices ++ [⟨pid, price, now⟩]

/-- Number of stored observations for a product. -/
def obsCount (prices : List PriceObs) (pid : Nat) : Nat :=
  (prices.filter (fun o => o.productId = pid)).length

/-! ## Alert engine (`main.py` `evaluate_alerts_for_product`, lines 1408–1448) -/

/-- The `trig` flag of `evaluate_alerts_for_product` (lines 1414–1418):
`trig` becomes true only for `price_below` with `price <= threshold` or
`price_above` with `price >= threshold`; no other rule type — in
particular neither `percent_drop` nor `percent_rise` — is examined. -/
def ruleTriggers (a : AlertRule) (price : Price) : Bool :=
  (a.ruleType = "price_below" &&
    match a.threshold with
    | some th => price ≤ th
    | none => false) ||
  (a.ruleType = "price_above" &&
    match a.threshold with
    | some th => th ≤ price
    | none => false)

/-- The cooldown of a rule: `int(a.get("cooldown_minutes") or 60)`. -/
def cooldownOf (a : AlertRule) : Nat := orDefaultNat a.cooldownMinutes 60

/-- The `allow` flag (lines 1422–1430): when `last_triggered_at` is unset,
allow; otherwise allow iff `(now - last).total_seconds() >= cooldown * 60`,
i.e. `last + cooldown * 60 ≤ now` (with a positive cooldown, the Python
comparison on the signed difference is equivalent to this `Nat` one). -/
def cooldownAllows (a : AlertRule) (now : Time) : Bool :=
  match a.lastTriggeredAt with
  | none => true
  | some t0 => t0 + cooldownOf a * 60 ≤ now

/-- Outcome of the dispatch `try` block (lines 1436–1446): the delivery
status, the recorded error and the in-app push row inserted, if any. -/
structure DispatchResult where
  status : String
  error : Option String
  push : Option Push
deriving Repr, DecidableEq

/-- The dispatch block of `evaluate_alerts_for_product`: `inapp` inserts a
push row (its id is the next autoincrement value, `pushCount + 1`);
`email` / `webhook` call out when a target is set; any raised exception
turns the status to `failed` with the stringified error; when no branch
matches, the status stays `ok` with no delivery at all. -/
def dispatchAlert (deliver : Deliver) (channel : String) (target : Option String)
    (userId : Nat) (pid : Nat) (price : Price) (now : Time)
    (pushCount : Nat) : DispatchResult :=
  if channel = "inapp" then
    { status := "ok", error := none
      push := some
        { id := pushCount + 1, senderId := none, recipientId := some userId
          productId := pid, message := "价格触发: " ++ toString price
          status := "pending", createdAt := now } }
  else if channel = "email" ∧ strTruthy target then
    match deliver "email" target with
    | Except.ok _ => { status := "ok", error := none, push := none }
    | Except.error e => { status := "failed", error := some e, push := none }
  else if channel = "webhook" ∧ strTruthy target then
    match deliver "webhook" target with
    | Except.ok _ => { status := "ok", error := none, push := none }
    | Except.error e => { status := "failed", error := some e, push := none }
  else { status := "ok", error := none, push := none }

/-- One iteration of the `for a in alerts:` loop of
`evaluate_alerts_for_product` for a single rule: if the rule's condition
matches and it is outside its cooldown, dispatch, insert one alert event
(`attempt = 1`, `created_at = now`) and set the rule's
`last_triggered_at = now`; otherwise leave everything unchanged.
`pushCount` / `eventCount` are the current table sizes, fixing the
autoincrement ids of the inserted rows. -/
def evalAlertForPrice (deliver : Deliver) (pid : Nat) (price : Price)
    (now : Time) (pushCount eventCount : Nat) (a : AlertRule) :
    Option AlertEvent × Option Push × AlertRule :=
  if ruleTriggers a price then
    if cooldownAllows a now then
      let channel := orDefaultStr a.channel "inapp"
      let d := dispatchAlert deliver channel a.target a.userId pid price now pushCount
      let e : AlertEvent :=
        { id := eventCount + 1, alertId := a.id, productId := pid
          userId := a.userId, price := price, createdAt := now
          message := "触发", channel := some channel
          pushId := d.push.map Push.id, status := d.status, error := d.error
          attempt := 1 }
      (some e, d.push, { a with lastTriggeredAt := some now, updatedAt := now })
    else (none, none, a)
  else (none, none, a)

/-- One step of the `for a in alerts:` loop of
`evaluate_alerts_for_product` over the whole alerts table: rules outside
the query filter (`product_id = pid`, `status = "active"`) pass through
untouched; a filtered rule is evaluated, appending its event and push
rows and its own updated row. -/
def evaluateAlertsStep (deliver : Deliver) (pid : Nat) (price : Price)
    (now : Time) (acc : DB) (a : AlertRule) : DB :=
  if a.productId = pid ∧ a.status = "active" then
    match evalAlertForPrice deliver pid price now
        acc.pushes.length acc.events.length a with
    | (some e, p, a2) =>
        { acc with
          events := acc.events ++ [e]
          pushes := acc.pushes ++ p.toList
          alerts := acc.alerts ++ [a2] }
    | (none, _, a2) => { acc with alerts := acc.alerts ++ [a2] }
  else { acc with alerts := acc.alerts ++ [a] }

/-- Embedding of `evaluate_alerts_for_product`: the query selects the rules with the
given product and `status = "active"`; the loop body runs for each of
them, appending events and pushes and updating each processed rule's own
row (keyed by its id, here positionally, ids being unique). -/
def evaluateAlertsForProduct (deliver : Deliver) (db : DB) (pid : Nat)
    (price : Price) (now : Time) : DB :=
  db.alerts.foldl (evaluateAlertsStep deliver pid price now)
    { db with alerts := [] }

/-- Repeated evaluations of one rule over a sequence of `(now, price)`
observations, as produced by successive `execute_task` runs for the
rule's product: each evaluation reads the rule state left by the
previous one.  Returns the alert events recorded for the rule. -/
def runRule (deliver : Deliver) (pid : Nat) (a : AlertRule) :
    List (Time × Price) → List AlertEvent
  | [] => []
  | (t, p) :: rest =>
      match evalAlertForPrice deliver pid p t 0 0 a with
      | (some e, _, a2) => e :: runRule deliver pid a2 rest
      | (none, _, a2) => runRule deliver pid a2 rest

/-! ## Price computation of `execute_task` (`main.py` lines 1330–1343) -/

/-- Python `round(x, 2)` on an exact value: round to a multiple of `1/100`,
ties to even (idealizing the binary-float representation). -/
def round2 (q : ℚ) : ℚ :=
  let m := q * 100
  let f : ℤ := m.floor
  let r := m - (f : ℚ)
  let n : ℤ :=
    if r < 1 / 2 then f
    else if 1 / 2 < r then f + 1
    else if f % 2 = 0 then f else f + 1
  (n : ℚ) / 100

/-- Embedding of `base = fetched if (isinstance(fetched, float) and fetched > 0) else
(last_price if last_price is not None else random.uniform(50.0, 200.0))`;
the random seed is the `seed` parameter. -/
def basePrice (fetched : Option Price) (lastPrice : Option Price)
    (seed : Price) : Price :=
  match fetched with
  | some v => if 0 < v then v else lastPrice.getD seed
  | none => lastPrice.getD seed

/-- Embedding of `(0 if fetched else random.uniform(-0.03, 0.03))`: the jitter is
suppressed exactly when `fetched` is truthy (a non-`None`, non-zero
float); the random draw is the `jitter` parameter. -/
def jitterFactor (fetched : Option Price) (jitter : Price) : Price :=
  match fetched with
  | some v => if v = 0 then jitter else 0
  | none => jitter

/-- Embedding of `price = round(base * (1 + (0 if fetched else jitter)), 2)`. -/
def computedPrice (fetched : Option Price) (lastPrice : Option Price)
    (seed jitter : Price) : Price :=
  round2 (basePrice fetched lastPrice seed * (1 + jitterFactor fetched jitter))

/-- The observation row inserted by `execute_task` (line 1342):
`{"product_id": pid, "price": price, "created_at": now}` — product, price
and timestamp, nothing else (no source tag). -/
def insertedObs (pid : Nat) (fetched : Option Price) (lastPrice : Option Price)
    (seed jitter : Price) (now : Time) : PriceObs :=
  ⟨pid, computedPrice fetched lastPrice seed jitter, now⟩

/-! ## The manual execution endpoint (`main.py` `execute_task`, Supabase
branch, lines 1316–1349) -/

/-- The record-and-alert section of `execute_task` (lines 1336–1343): the
latest observation is re-queried; unless the candidate price equals the
previous price within the same minute, the new observation is inserted and
`evaluate_alerts_for_product` runs synchronously on it. -/
def recordAndEvaluate (deliver : Deliver) (db : DB) (pid : Nat)
    (price : Price) (now : Time) : DB :=
  match latestPriceRow db.prices pid with
  | none =>
      evaluateAlertsForProduct deliver
        { db with prices := db.prices ++ [⟨pid, price, now⟩] } pid price now
  | some prev =>
      if prev.price = price ∧ minuteOf prev.createdAt = minuteOf now then db
      else
        evaluateAlertsForProduct deliver
          { db with prices := db.prices ++ [⟨pid, price, now⟩] } pid price now

/-- Embedding of `execute_task` (Supabase branch): look the task and its product up
(without any check of the task's current status), mark the task running,
compute the price (`fetched` is the `try_fetch_price` result, taken only
when the product has a truthy URL; `seed` and `jitter` are the two random
draws), insert the observation unless coalesced, evaluate alerts, touch
the product's `updated_at`, and mark the task completed.  `Except.error`
carries the error code of the HTTP error response. -/
def executeTask (deliver : Deliver) (paused : Bool) (fetched : Option Price)
    (seed jitter : Price) (db : DB) (taskId : Nat) (now : Time) :
    Except String DB :=
  if paused then Except.error "NODE_PAUSED"
  else
    match db.tasks.find? (fun t => t.id = taskId) with
    | none => Except.error "NOT_FOUND"
    | some t =>
        match t.productId with
        | none => Except.error "VALIDATION_ERROR"
        | some pid =>
            match db.products.find? (fun p => p.id = pid) with
            | none => Except.error "NOT_FOUND"
            | some p =>
                let db1 : DB :=
                  { db with
                    tasks := db.tasks.map fun u =>
                      if u.id = taskId then
                        { u with status := "running", updatedAt := now
                                 startedAt := some now }
                      else u }
                let lastPrice := (latestPriceRow db1.prices pid).map PriceObs.price
                let fetchedEff := if strTruthy p.url then fetched else none
                let price := computedPrice fetchedEff lastPrice seed jitter
                let db2 := recordAndEvaluate deliver db1 pid price now
                let db3 : DB :=
                  { db2 with
                    products := db2.products.map fun q =>
                      if q.id = pid then { q with updatedAt := now } else q }
                Except.ok
                  { db3 with
                    tasks := db3.tasks.map fun u =>
                      if u.id = taskId then
                        { u with status := "completed", updatedAt := now
                                 completedAt := some now }
                      else u }

/-! ## Worker retry loop (`src/workers/amazon_worker.py`
`UniversalWorker.process_task`, lines 53–151) -/

/-- Outcome of one fetch attempt of the worker: a valid price, an invalid
result (`price is None or price <= 0`), or a raised exception with its
stringified message. -/
inductive FetchOutcome where
  | ok (price : Price)
  | invalid
  | exn (msg : String)
deriving Repr, DecidableEq

/-- The `while attempt <= self._retry_count:` loop, entered with the
counter at `a`: each iteration increments the counter, performs the fetch
attempt, breaks with a success mark on a valid price, and on a failure
marks the task failed when the incremented counter exceeds the retry
ceiling, otherwise retries.  Returns the number of fetch attempts
performed and the final `mark_task_result` call `(status, message)`, if
any.  (The success branch's bookkeeping — price insert, SKU upserts and
the alert check — is outside this loop model; the claims settled on it
concern the all-failures path.) -/
def processTaskLoop (fetch : Nat → FetchOutcome) (retryLimit : Nat)
    (productId : Nat) (a : Nat) : Nat × Option (String × String) :=
  if a ≤ retryLimit then
    let att := a + 1
    match fetch att with
    | FetchOutcome.ok p =>
        (1, some ("succeeded",
          "成功处理商品 " ++ toString productId ++ ", 价格=" ++ toString p))
    | FetchOutcome.invalid =>
        if retryLimit < att then
          (1, some ("failed", "未能获取到有效价格，商品=" ++ toString productId))
        else
          let r := processTaskLoop fetch retryLimit productId att
          (r.1 + 1, r.2)
    | FetchOutcome.exn msg =>
        if retryLimit < att then (1, some ("failed", msg))
        else
          let r := processTaskLoop fetch retryLimit productId att
          (r.1 + 1, r.2)
  else (0, none)
termination_by retryLimit + 1 - a
decreasing_by
  all_goals omega

/-- The whole retry portion of `process_task`, starting from `attempt = 0`. -/
def processTaskAttempts (fetch : Nat → FetchOutcome) (retryLimit : Nat)
    (productId : Nat) : Nat × Option (String × String) :=
  processTaskLoop fetch retryLimit productId 0

/-! ## Manual alert-event retry (`main.py` `retry_alert_event`,
lines 1450–1483) -/

/-- The dispatch block of `retry_alert_event` (lines 1471–1481).  The
channel here is the raw value resolved from the owning alert (it defaults
to `inapp` only when the alert row is missing); the in-app push uses
`sender_id = 0` and the retry message. -/
def dispatchRetry (deliver : Deliver) (channel : Option String)
    (target : Option String) (userId : Nat) (pid : Nat) (price : Price)
    (now : Time) (pushCount : Nat) : DispatchResult :=
  if channel = some "inapp" then
    { status := "ok", error := none
      push := some
        { id := pushCount + 1, senderId := some 0, recipientId := some userId
          productId := pid, message := "价格触发(重试): " ++ toString price
          status := "pending", createdAt := now } }
  else if channel = some "email" ∧ strTruthy target then
    match deliver "email" target with
    | Except.ok _ => { status := "ok", error := none, push := none }
    | Except.error e => { status := "failed", error := some e, push := none }
  else if channel = some "webhook" ∧ strTruthy target then
    match deliver "webhook" target with
    | Except.ok _ => { status := "ok", error := none, push := none }
    | Except.error e => { status := "failed", error := some e, push := none }
  else { status := "ok", error := none, push := none }

/-- Embedding of `retry_alert_event`: look the event up, resolve channel and target
from the owning alert, read the product's latest stored price — the
subscript `price_rows[0]` raises an `IndexError` when the product has no
stored prices (line 1467), embedded as an `Except.error`; `or 0` maps a
stored price of `0` to `0`, i.e. the stored value itself — re-attempt
delivery and append a new event row with `attempt = int(old or 1) + 1`,
leaving every existing row untouched. -/
def retryAlertEvent (deliver : Deliver) (db : DB) (eventId : Nat)
    (now : Time) : Except String DB :=
  match db.events.find? (fun e => e.id = eventId) with
  | none => Except.error "NOT_FOUND"
  | some e =>
      let arow := db.alerts.find? (fun a => a.id = e.alertId)
      let channel : Option String :=
        match arow with
        | some a => a.channel
        | none => some "inapp"
      let target : Option String :=
        match arow with
        | some a => a.target
        | none => none
      match latestPriceRow db.prices e.productId with
      | none => Except.error "list index out of range"
      | some row =>
          let price := row.price
          let d := dispatchRetry deliver channel target e.userId e.productId
            price now db.pushes.length
          let newEvent : AlertEvent :=
            { id := db.events.length + 1, alertId := e.alertId
              productId := e.productId, userId := e.userId, price := price
              createdAt := now, message := "重试", channel := channel
              pushId := d.push.map Push.id, status := d.status, error := d.error
              attempt := (if e.attempt = 0 then 1 else e.attempt) + 1 }
          Except.ok
            { db with
              pushes := db.pushes ++ d.push.toList
              events := db.events ++ [newEvent] }

/-! ## Concrete fixtures used by witnesses and counterexamples -/

/-- A delivery oracle that always succeeds. -/
def okDeliver : Deliver := fun _ _ => Except.ok ()

/-- A delivery oracle that always raises (e.g. SMTP unreachable). -/
def failDeliver : Deliver := fun _ _ => Except.error "smtp down"

/-- An active `percent_drop` rule with `percent = 5` on product 1. -/
def pdropRule5 : AlertRule :=
  ⟨1, 10, 1, "percent_drop", none, some 5, some "inapp", some 60, "active",
    none, none, 0⟩

/-- An active `percent_drop` rule with `percent = 15` on product 1. -/
def pdropRule15 : AlertRule :=
  ⟨2, 10, 1, "percent_drop", none, some 15, some "inapp", some 60, "active",
    none, none, 0⟩

/-- A database whose price history for product 1 is `[100, 100, 100]` and
whose alert rules are the two `percent_drop` rules. -/
def pdropDb : DB :=
  ⟨[], [], [⟨1, 100, 60⟩, ⟨1, 100, 120⟩, ⟨1, 100, 180⟩],
    [pdropRule5, pdropRule15], [], []⟩

/-- An active `price_below` rule (threshold 120, cooldown 60 minutes,
last triggered at instant 0, in-app channel) on product 1. -/
def belowRule : AlertRule :=
  ⟨5, 10, 1, "price_below", some 120, none, some "inapp", some 60, "active",
    some 0, none, 0⟩

/-- A task for product 1 already in the terminal status `completed`,
with `completed_at = 10`. -/
def doneTask : Task :=
  ⟨1, some 1, "completed", 0, 0, 0, 10, some 5, some 10, 0, none, none⟩

/-- Product 1 with a truthy URL. -/
def product1 : Product := ⟨1, some "http://example.com/p1", 0⟩

/-- A database holding only the completed task and its product. -/
def doneDb : DB := ⟨[doneTask], [product1], [], [], [], []⟩

/-- A previously recorded failed alert event (email delivery failure) for
alert 5 on product 1: observed price 100, `attempt = 1`. -/
def failedEvent : AlertEvent :=
  ⟨1, 5, 1, 10, 100, 50, "触发", some "email", none, "failed",
    some "smtp down", 1⟩

/-- The alert owning `failedEvent`, with email channel and a target. -/
def emailRule : AlertRule :=
  ⟨5, 10, 1, "price_below", some 120, none, some "email", some 60, "active",
    some 50, some "user@example.com", 50⟩

/-- A database holding `failedEvent`, its owning alert and a later price
observation (80, differing from the event's observed 100). -/
def retryDb : DB := ⟨[], [], [⟨1, 80, 60⟩], [emailRule], [failedEvent], []⟩

/-- Fixture `retryDb` with the product's price history emptied. -/
def retryDbNoPrices : DB := { retryDb with prices := [] }

/-- A pending task scheduled far in the future (instant 1000). -/
def futureTask : Task :=
  ⟨1, some 1, "pending", 0, 1000, 0, 0, none, none, 0, none, none⟩

/-- A low-priority pending task due early. -/
def earlyLowPrio : Task :=
  ⟨1, some 1, "pending", 0, 10, 0, 0, none, none, 0, none, none⟩

/-- A high-priority pending task due later. -/
def lateHighPrio : Task :=
  ⟨2, some 2, "pending", 5, 20, 0, 0, none, none, 0, none, none⟩

end PriceSpider

namespace PriceSpider

/-! ## Helper lemmas -/

/-- The fold of `latestPriceRow` ignores rows of other products. -/
theorem latestPriceRow_foldl_skip {pid : Nat} {l : List PriceObs}
    (acc : Option PriceObs) (h : ∀ o ∈ l, o.productId ≠ pid) :
    l.foldl
      (fun acc o =>
        if o.productId = pid then
          match acc with
          | none => some o
          | some b => if b.createdAt ≤ o.createdAt then some o else some b
        else acc)
      acc = acc := by
  induction l generalizing acc with
  | nil => rfl
  | cons o rest ih =>
      have ho : o.productId ≠ pid := h o (List.mem_cons_self o rest)
      simp only [List.foldl_cons, if_neg ho]
      exact ih acc fun x hx => h x (List.mem_cons_of_mem o hx)

/-- A store without observations for the product has no latest row. -/
theorem latestPriceRow_eq_none {prices : List PriceObs} {pid : Nat}
    (h : ∀ o ∈ prices, o.productId ≠ pid) :
    latestPriceRow prices pid = none :=
  latestPriceRow_foldl_skip none h

/-- Appending the product's first observation makes it the latest row. -/
theorem latestPriceRow_append_single {prices : List PriceObs} {pid : Nat}
    (h : ∀ o ∈ prices, o.productId ≠ pid) (p : Price) (t : Time) :
    latestPriceRow (prices ++ [⟨pid, p, t⟩]) pid = some ⟨pid, p, t⟩ := by
  unfold latestPriceRow
  rw [List.foldl_append, latestPriceRow_foldl_skip none h]
  simp

/-- Every task returned by `get_pending_tasks` has status `pending`
(the query's only filter). -/
theorem getPendingTasks_status (tasks : List Task) (limit : Nat) :
    ∀ t ∈ getPendingTasks tasks limit, t.status = "pending" := by
  intro t ht
  unfold getPendingTasks at ht
  have h1 := List.take_subset limit _ ht
  have h2 := (List.perm_insertionSort
    (fun a b : Task => a.scheduledAt ≤ b.scheduledAt) _).mem_iff.mp h1
  have h3 := List.of_mem_filter h2
  simpa using h3

/-- When every attempt in range fails, the worker loop started at counter
`a ≤ R` performs exactly `R + 1 - a` further attempts and ends in a
`mark_task_result(_, "failed", msg)` call whose message is either the
fixed no-valid-price message or the stringified exception of an attempt. -/
theorem processTaskLoop_fail (fetch : Nat → FetchOutcome) (R pid : Nat) :
    ∀ n a, R + 1 - a = n → a ≤ R →
      (∀ k, a < k → k ≤ R + 1 → ∀ p, fetch k ≠ FetchOutcome.ok p) →
      ∃ msg,
        processTaskLoop fetch R pid a = (R + 1 - a, some ("failed", msg)) ∧
        (msg = "未能获取到有效价格，商品=" ++ toString pid ∨
          ∃ k, fetch k = FetchOutcome.exn msg) := by
  intro n
  induction n with
  | zero => intro a h ha _; omega
  | succ m ih =>
      intro a h ha hfail
      rw [processTaskLoop]
      simp only [if_pos ha]
      cases hf : fetch (a + 1) with
      | ok p => exact absurd hf (hfail (a + 1) (by omega) (by omega) p)
      | invalid =>
          by_cases hR : R < a + 1
          · refine ⟨"未能获取到有效价格，商品=" ++ toString pid, ?_, Or.inl rfl⟩
            have h1 : R + 1 - a = 1 := by omega
            simp [hf, hR, h1]
          · have hstep : a + 1 ≤ R := by omega
            obtain ⟨msg, hres, hch⟩ := ih (a + 1) (by omega) hstep
              (fun k hk1 hk2 p => hfail k (by omega) hk2 p)
            refine ⟨msg, ?_, hch⟩
            have h1 : R + 1 - a = (R + 1 - (a + 1)) + 1 := by omega
            simp [hf, hR, hres, h1]
      | exn emsg =>
          by_cases hR : R < a + 1
          · refine ⟨emsg, ?_, Or.inr ⟨a + 1, hf⟩⟩
            have h1 : R + 1 - a = 1 := by omega
            simp [hf, hR, h1]
          · have hstep : a + 1 ≤ R := by omega
            obtain ⟨msg, hres, hch⟩ := ih (a + 1) (by omega) hstep
              (fun k hk1 hk2 p => hfail k (by omega) hk2 p)
            refine ⟨msg, ?_, hch⟩
            have h1 : R + 1 - a = (R + 1 - (a + 1)) + 1 := by omega
            simp [hf, hR, hres, h1]

/-- When the rule's condition matches outside its cooldown, evaluation
emits one event stamped `created_at = now`, `attempt = 1`, and sets the
rule's `last_triggered_at` to `now`. -/
theorem evalAlertForPrice_emit (deliver : Deliver) (pid : Nat) (price : Price)
    (now : Time) (pc ec : Nat) (a : AlertRule)
    (h1 : ruleTriggers a price = true) (h2 : cooldownAllows a now = true) :
    ∃ e, evalAlertForPrice deliver pid price now pc ec a
        = (some e,
           (dispatchAlert deliver (orDefaultStr a.channel "inapp") a.target
             a.userId pid price now pc).push,
           { a with lastTriggeredAt := some now, updatedAt := now })
      ∧ e.createdAt = now ∧ e.attempt = 1 ∧ e.price = price := by
  unfold evalAlertForPrice
  simp only [h1, h2, if_pos]
  exact ⟨_, rfl, rfl, rfl, rfl⟩

/-- When the condition fails or the rule is inside its cooldown,
evaluation leaves everything untouched. -/
theorem evalAlertForPrice_skip (deliver : Deliver) (pid : Nat) (price : Price)
    (now : Time) (pc ec : Nat) (a : AlertRule)
    (h : ruleTriggers a price = false ∨ cooldownAllows a now = false) :
    evalAlertForPrice deliver pid price now pc ec a = (none, none, a) := by
  unfold evalAlertForPrice
  rcases h with h | h
  · simp [h]
  · cases h1 : ruleTriggers a price <;> simp [h1, h]

/-- Rule evaluation never changes the rule's cooldown setting. -/
theorem evalAlertForPrice_cooldownOf (deliver : Deliver) (pid : Nat)
    (price : Price) (now : Time) (pc ec : Nat) (a : AlertRule) :
    cooldownOf (evalAlertForPrice deliver pid price now pc ec a).2.2
      = cooldownOf a := by
  unfold evalAlertForPrice
  cases h1 : ruleTriggers a price <;> cases h2 : cooldownAllows a now <;>
    simp [h1, h2, cooldownOf]

/-- The updated rule state does not depend on the table-size counters
(which only fix the fresh event and push ids). -/
theorem evalAlertForPrice_state_eq (deliver : Deliver) (pid : Nat)
    (price : Price) (now : Time) (pc ec pc2 ec2 : Nat) (a : AlertRule) :
    (evalAlertForPrice deliver pid price now pc ec a).2.2
      = (evalAlertForPrice deliver pid price now pc2 ec2 a).2.2 := by
  unfold evalAlertForPrice
  cases h1 : ruleTriggers a price <;> cases h2 : cooldownAllows a now <;>
    simp [h1, h2]

/-- Once a rule's `last_triggered_at` is set to `t0`, every event a run
of evaluations records for it is at least one cooldown after `t0`. -/
theorem runRule_lowerBound (deliver : Deliver) (pid : Nat) :
    ∀ (seq : List (Time × Price)) (a : AlertRule) (t0 : Time),
      a.lastTriggeredAt = some t0 →
      ∀ e ∈ runRule deliver pid a seq,
        t0 + cooldownOf a * 60 ≤ e.createdAt := by
  intro seq
  induction seq with
  | nil => intro a t0 _ e he; simp [runRule] at he
  | cons tp rest ih =>
      intro a t0 hlast e he
      obtain ⟨t, p⟩ := tp
      rw [runRule] at he
      by_cases h1 : ruleTriggers a p = true
      · by_cases h2 : cooldownAllows a t = true
        · obtain ⟨e1, hred, het, -, -⟩ :=
            evalAlertForPrice_emit deliver pid p t 0 0 a h1 h2
          rw [hred] at he
          simp only [List.mem_cons] at he
          have hcool : t0 + cooldownOf a * 60 ≤ t := by
            unfold cooldownAllows at h2
            rw [hlast] at h2
            exact of_decide_eq_true h2
          rcases he with he | he
          · rw [he, het]; exact hcool
          · have hlb :=
              ih { a with lastTriggeredAt := some t, updatedAt := t } t rfl e he
            have hc :
                cooldownOf { a with lastTriggeredAt := some t, updatedAt := t }
                  = cooldownOf a := rfl
            rw [hc] at hlb
            exact le_trans
              (Nat.add_le_add_right
                (le_trans (Nat.le_add_right t0 (cooldownOf a * 60)) hcool)
                (cooldownOf a * 60))
              hlb
        · rw [evalAlertForPrice_skip deliver pid p t 0 0 a
            (Or.inr (by simpa using h2))] at he
          exact ih a t0 hlast e he
      · rw [evalAlertForPrice_skip deliver pid p t 0 0 a
          (Or.inl (by simpa using h1))] at he
        exact ih a t0 hlast e he

/-- Any two events a run of evaluations records for one rule are at least
one cooldown apart. -/
theorem runRule_pairwise (deliver : Deliver) (pid : Nat) :
    ∀ (seq : List (Time × Price)) (a : AlertRule),
      (runRule deliver pid a seq).Pairwise
        (fun e1 e2 => e1.createdAt + cooldownOf a * 60 ≤ e2.createdAt) := by
  intro seq
  induction seq with
  | nil => intro a; simp [runRule]
  | cons tp rest ih =>
      intro a
      obtain ⟨t, p⟩ := tp
      rw [runRule]
      by_cases h1 : ruleTriggers a p = true
      · by_cases h2 : cooldownAllows a t = true
        · obtain ⟨e1, hred, het, -, -⟩ :=
            evalAlertForPrice_emit deliver pid p t 0 0 a h1 h2
          rw [hred]
          refine List.Pairwise.cons ?_ ?_
          · intro e2 he2
            have hlb := runRule_lowerBound deliver pid rest
              { a with lastTriggeredAt := some t, updatedAt := t } t rfl e2 he2
            have hc :
                cooldownOf { a with lastTriggeredAt := some t, updatedAt := t }
                  = cooldownOf a := rfl
            rw [hc] at hlb
            rw [het]
            exact hlb
          · exact ih { a with lastTriggeredAt := some t, updatedAt := t }
        · rw [evalAlertForPrice_skip deliver pid p t 0 0 a
            (Or.inr (by simpa using h2))]
          exact ih a
      · rw [evalAlertForPrice_skip deliver pid p t 0 0 a
          (Or.inl (by simpa using h1))]
        exact ih a

/-- The alerts table after `evaluate_alerts_for_product`'s loop: each
rule's new state is a function of that rule alone (per-rule cooldown
state, independent of the other rules processed in the same loop). -/
theorem evaluateAlerts_fold_alerts (deliver : Deliver) (pid : Nat)
    (price : Price) (now : Time) :
    ∀ (l : List AlertRule) (acc : DB),
      (l.foldl (evaluateAlertsStep deliver pid price now) acc).alerts
        = acc.alerts ++ l.map fun b =>
            if b.productId = pid ∧ b.status = "active" then
              (evalAlertForPrice deliver pid price now 0 0 b).2.2
            else b := by
  intro l
  induction l with
  | nil => intro acc; simp
  | cons b l ih =>
      intro acc
      rw [List.foldl_cons, ih]
      have hstep : (evaluateAlertsStep deliver pid price now acc b).alerts
          = acc.alerts ++
            [if b.productId = pid ∧ b.status = "active" then
              (evalAlertForPrice deliver pid price now 0 0 b).2.2
            else b] := by
        unfold evaluateAlertsStep
        by_cases hb : b.productId = pid ∧ b.status = "active"
        · simp only [if_pos hb]
          rcases hres : evalAlertForPrice deliver pid price now
            acc.pushes.length acc.events.length b with ⟨opt, push, a2⟩
          have ha2 : a2 = (evalAlertForPrice deliver pid price now 0 0 b).2.2 := by
            have h := evalAlertForPrice_state_eq deliver pid price now
              acc.pushes.length acc.events.length 0 0 b
            rw [hres] at h
            exact h
          cases opt <;> simp [ha2]
        · simp [if_neg hb]
      rw [hstep]
      simp

/-! ## Claims -/

/-- Claim C1 (code_bug).  The claim: an active `percent_drop` rule with
`percent = 5` must record an Alert Event when the price moves from 100 to
90 (a 10% drop ≥ 5%).  The code's `evaluate_alerts_for_product` computes
its `trig` flag only for `price_below` / `price_above` (`main.py` lines
1414–1418) and never consults `percent`, so with price history
`[100, 100, 100]` and new price 90 neither the `percent=5` nor the
`percent=15` rule records any event: the event table stays empty. -/
theorem C1_percent_rules_never_trigger :
    (evaluateAlertsForProduct okDeliver pdropDb 1 90 300).events = []
      ∧ ruleTriggers pdropRule5 90 = false := by
  decide

/-- Claim C2 (confirmed).  Cooldown semantics of
`evaluate_alerts_for_product`: (1) over any run of evaluations of one
rule, any two recorded events are at least `cooldown_minutes` apart;
(2) while `now - last_triggered_at < cooldown * 60` the rule is skipped
even though its condition matches; (3) a matching evaluation at or after
the cooldown records an event stamped at `now`; (4) the loop updates each
rule's state as a function of that rule alone, so rules on the same
product have independent cooldowns. -/
theorem C2_cooldown_semantics (deliver : Deliver) (pid : Nat) (a : AlertRule) :
    (∀ seq : List (Time × Price),
      (runRule deliver pid a seq).Pairwise
        (fun e1 e2 => e1.createdAt + cooldownOf a * 60 ≤ e2.createdAt))
  ∧ (∀ (now : Time) (price : Price) (t0 : Time),
      a.lastTriggeredAt = some t0 → now < t0 + cooldownOf a * 60 →
      (evalAlertForPrice deliver pid price now 0 0 a).1 = none)
  ∧ (∀ (now : Time) (price : Price) (t0 : Time),
      ruleTriggers a price = true → a.lastTriggeredAt = some t0 →
      t0 + cooldownOf a * 60 ≤ now →
      ∃ e, (evalAlertForPrice deliver pid price now 0 0 a).1 = some e
        ∧ e.createdAt = now)
  ∧ (∀ (db : DB) (price : Price) (now : Time),
      (evaluateAlertsForProduct deliver db pid price now).alerts
        = db.alerts.map fun b =>
            if b.productId = pid ∧ b.status = "active" then
              (evalAlertForPrice deliver pid price now 0 0 b).2.2
            else b) := by
  refine ⟨fun seq => runRule_pairwise deliver pid seq a, ?_, ?_, ?_⟩
  · intro now price t0 hlast hlt
    have h2 : cooldownAllows a now = false := by
      unfold cooldownAllows
      rw [hlast]
      simp only [decide_eq_false_iff_not]
      exact fun hcon => Nat.lt_irrefl now (Nat.lt_of_lt_of_le hlt hcon)
    rw [evalAlertForPrice_skip deliver pid price now 0 0 a (Or.inr h2)]
  · intro now price t0 htrig hlast hle
    have h2 : cooldownAllows a now = true := by
      unfold cooldownAllows
      rw [hlast]
      exact decide_eq_true hle
    obtain ⟨e, hred, het, -, -⟩ :=
      evalAlertForPrice_emit deliver pid price now 0 0 a htrig h2
    exact ⟨e, by rw [hred], het⟩
  · intro db price now
    unfold evaluateAlertsForProduct
    rw [evaluateAlerts_fold_alerts]
    simp

/-- Witness for C2 at a `price_below(120)` rule with cooldown 60 minutes,
last triggered at instant 0: evaluating price 49 one second before the
hour is skipped, at 61 minutes (3660) records a second event; a run over
three evaluations keeps all events one cooldown apart; and the concrete
two-rule table updates each rule independently. -/
theorem C2_cooldown_semantics_witness :
    (runRule okDeliver 1 belowRule [(100, 49), (3599, 49), (3660, 49)]).Pairwise
      (fun e1 e2 => e1.createdAt + cooldownOf belowRule * 60 ≤ e2.createdAt)
  ∧ (evalAlertForPrice okDeliver 1 49 3599 0 0 belowRule).1 = none
  ∧ (∃ e, (evalAlertForPrice okDeliver 1 49 3660 0 0 belowRule).1 = some e
      ∧ e.createdAt = 3660)
  ∧ (evaluateAlertsForProduct okDeliver pdropDb 1 90 300).alerts
      = pdropDb.alerts.map fun b =>
          if b.productId = 1 ∧ b.status = "active" then
            (evalAlertForPrice okDeliver 1 90 300 0 0 b).2.2
          else b := by
  have h := C2_cooldown_semantics okDeliver 1 belowRule
  refine ⟨h.1 [(100, 49), (3599, 49), (3660, 49)], ?_, ?_, h.2.2.2 pdropDb 90 300⟩
  · exact h.2.1 3599 49 0 rfl (by decide)
  · exact h.2.2.1 3660 49 0 (by norm_num [ruleTriggers, belowRule]) rfl (by decide)

/-- Claim C4 (confirmed).  Duplicate coalescing of `execute_task`: (1) a
candidate price equal to the latest stored observation's price and in the
same minute window inserts nothing; (2) a differing price inserts a new
row; (3) the same price outside the minute window inserts a new row;
(4) starting with no stored observation for the product, recording the
same price twice within one minute leaves exactly one stored row. -/
theorem C4_dedup_coalescing (prices : List PriceObs) (pid : Nat) (p : Price)
    (now : Time) :
    (∀ o, latestPriceRow prices pid = some o → o.price = p →
      minuteOf o.createdAt = minuteOf now →
      recordPriceObs prices pid p now = prices)
  ∧ (∀ o, latestPriceRow prices pid = some o → o.price ≠ p →
      recordPriceObs prices pid p now = prices ++ [⟨pid, p, now⟩])
  ∧ (∀ o, latestPriceRow prices pid = some o →
      minuteOf o.createdAt ≠ minuteOf now →
      recordPriceObs prices pid p now = prices ++ [⟨pid, p, now⟩])
  ∧ (∀ t1 : Time, (∀ o ∈ prices, o.productId ≠ pid) →
      minuteOf t1 = minuteOf now →
      obsCount (recordPriceObs (recordPriceObs prices pid p t1) pid p now)
        pid = 1) := by
  refine ⟨?_, ?_, ?_, ?_⟩
  · intro o ho hp hm
    simp only [recordPriceObs, ho]
    simp [hp, hm]
  · intro o ho hp
    simp only [recordPriceObs, ho]
    simp [hp]
  · intro o ho hm
    simp only [recordPriceObs, ho]
    simp [hm]
  · intro t1 hnone hm
    have h0 : latestPriceRow prices pid = none :=
      latestPriceRow_eq_none hnone
    have h1 : recordPriceObs prices pid p t1 = prices ++ [⟨pid, p, t1⟩] := by
      simp [recordPriceObs, h0]
    have h2 : latestPriceRow (prices ++ [⟨pid, p, t1⟩]) pid
        = some ⟨pid, p, t1⟩ := latestPriceRow_append_single hnone p t1
    have h3 : recordPriceObs (prices ++ [⟨pid, p, t1⟩]) pid p now
        = prices ++ [⟨pid, p, t1⟩] := by
      simp [recordPriceObs, h2, hm]
    rw [h1, h3]
    have hf : prices.filter (fun o => o.productId = pid) = [] := by
      simp only [List.filter_eq_nil_iff]
      intro o ho
      simpa using hnone o ho
    simp [obsCount, List.filter_append, hf]

/-- Witness for C4 at concrete inputs: an existing observation (price 50
at instant 65, minute 1) coalesces an identical recording at instant 90
(same minute), while a different price or a recording at instant 125
(minute 2) inserts; two recordings of 50 within minute 1 from an empty
store leave one row. -/
theorem C4_dedup_coalescing_witness :
    recordPriceObs [⟨1, 50, 65⟩] 1 50 90 = [⟨1, 50, 65⟩]
  ∧ recordPriceObs [⟨1, 51, 65⟩] 1 50 90 = [⟨1, 51, 65⟩] ++ [⟨1, 50, 90⟩]
  ∧ recordPriceObs [⟨1, 50, 65⟩] 1 50 125 = [⟨1, 50, 65⟩] ++ [⟨1, 50, 125⟩]
  ∧ obsCount (recordPriceObs (recordPriceObs [] 1 50 65) 1 50 90) 1 = 1 := by
  refine ⟨?_, ?_, ?_, ?_⟩
  · exact (C4_dedup_coalescing [⟨1, 50, 65⟩] 1 50 90).1 ⟨1, 50, 65⟩
      (by decide) (by decide) (by decide)
  · exact (C4_dedup_coalescing [⟨1, 51, 65⟩] 1 50 90).2.1 ⟨1, 51, 65⟩
      (by decide) (by decide)
  · exact (C4_dedup_coalescing [⟨1, 50, 65⟩] 1 50 125).2.2.1 ⟨1, 50, 65⟩
      (by decide) (by decide)
  · exact (C4_dedup_coalescing [] 1 50 90).2.2.2 65 (by simp) (by decide)

/-- Claim C3 (confirmed).  When every fetch attempt of a task fails (no
attempt yields a valid price) and stringified exceptions are non-empty,
the worker's loop performs exactly `max_retries + 1` fetch attempts
(i.e. `max_retries` retries after the first attempt) and ends by marking
the task `failed` with a non-empty message, which `mark_task_result`
persists into the task's `result_message`. -/
theorem C3_retry_ceiling (fetch : Nat → FetchOutcome) (R pid : Nat)
    (hfail : ∀ k, 1 ≤ k → k ≤ R + 1 → ∀ p, fetch k ≠ FetchOutcome.ok p)
    (hmsg : ∀ k msg, fetch k = FetchOutcome.exn msg → msg ≠ "") :
    ∃ msg,
      processTaskAttempts fetch R pid = (R + 1, some ("failed", msg))
      ∧ msg ≠ ""
      ∧ ∀ (tasks : List Task) (tid : Nat) (now : Time) (t : Task),
          t ∈ tasks → t.id = tid →
          { t with
            status := "failed"
            completedAt := some now
            resultMessage := some msg } ∈
            markTaskResult tasks tid "failed" (some msg) now := by
  obtain ⟨msg, hres, hch⟩ := processTaskLoop_fail fetch R pid (R + 1) 0
    (by omega) (by omega) (fun k hk1 hk2 p => hfail k (by omega) hk2 p)
  have hne : msg ≠ "" := by
    rcases hch with h | ⟨k, hk⟩
    · subst h
      intro hcon
      have hlen : ("未能获取到有效价格，商品=" ++ toString pid).length = 0 := by
        rw [hcon]; rfl
      rw [String.length_append] at hlen
      have hpos : 0 < ("未能获取到有效价格，商品=" : String).length := by decide
      omega
    · exact hmsg k msg hk
  refine ⟨msg, ?_, hne, ?_⟩
  · simpa [processTaskAttempts] using hres
  · intro tasks tid now t ht hid
    unfold markTaskResult
    refine List.mem_map.mpr ⟨t, ht, ?_⟩
    simp [hid, hne]

/-- Witness for C3 at a concrete always-raising fetch with
`max_retries = 2`: exactly 3 attempts, then `failed` with a non-empty
message. -/
theorem C3_retry_ceiling_witness :
    ∃ msg,
      processTaskAttempts (fun _ => FetchOutcome.exn "boom") 2 7
        = (3, some ("failed", msg)) ∧ msg ≠ "" := by
  obtain ⟨msg, h1, h2, _⟩ := C3_retry_ceiling (fun _ => FetchOutcome.exn "boom")
    2 7 (fun k _ _ p => by simp) (fun k m hm => by cases hm; decide)
  exact ⟨msg, h1, h2⟩

/-- Claim C5 (corrected) — counterexample.  The claim: dequeuing returns only
pending tasks with `scheduled_at <= now`, ordered by priority descending,
then `scheduled_at` ascending, then id.  `get_pending_tasks` takes no
notion of `now` at all and returns a pending task scheduled at instant
1000 even when dequeuing at instant 0; and with a low-priority task due at
10 and a high-priority one due at 20, it returns the low-priority task
first (ordering by `scheduled_at` alone, not priority). -/
theorem C5_dequeue_counterexample :
    getPendingTasks [futureTask] 10 = [futureTask]
  ∧ futureTask.status = "pending"
  ∧ ¬ futureTask.scheduledAt ≤ 0
  ∧ getPendingTasks [earlyLowPrio, lateHighPrio] 10
      = [earlyLowPrio, lateHighPrio]
  ∧ earlyLowPrio.priority < lateHighPrio.priority := by
  decide

/-- Claim C5 (corrected) — amended claim.  `get_pending_tasks` returns only
tasks with status `pending`, sorted by `scheduled_at` ascending, up to the
limit (no `scheduled_at <= now` filter, no priority or id ordering). -/
theorem C5_dequeue_amended (tasks : List Task) (limit : Nat) :
    (∀ t ∈ getPendingTasks tasks limit, t.status = "pending")
  ∧ List.Sorted (fun a b : Task => a.scheduledAt ≤ b.scheduledAt)
      (getPendingTasks tasks limit)
  ∧ (getPendingTasks tasks limit).length
      = min limit (tasks.filter (fun t => t.status = "pending")).length := by
  refine ⟨getPendingTasks_status tasks limit, ?_, ?_⟩
  · unfold getPendingTasks
    haveI : IsTotal Task (fun a b : Task => a.scheduledAt ≤ b.scheduledAt) :=
      ⟨fun a b => Nat.le_total a.scheduledAt b.scheduledAt⟩
    haveI : IsTrans Task (fun a b : Task => a.scheduledAt ≤ b.scheduledAt) :=
      ⟨fun _ _ _ hab hbc => Nat.le_trans hab hbc⟩
    exact (List.sorted_insertionSort _ _).take
  · unfold getPendingTasks
    rw [List.length_take, (List.perm_insertionSort _ _).length_eq]

/-- Witness for C5's amended claim at a concrete queue: with the
high-priority task listed first, dequeue still yields the early
low-priority task first; both returned tasks are pending, the result is
sorted by `scheduled_at`, and its length is the number of pending rows. -/
theorem C5_dequeue_amended_witness :
    lateHighPrio ∈ getPendingTasks [lateHighPrio, earlyLowPrio] 10
  ∧ lateHighPrio.status = "pending"
  ∧ List.Sorted (fun a b : Task => a.scheduledAt ≤ b.scheduledAt)
      (getPendingTasks [lateHighPrio, earlyLowPrio] 10)
  ∧ (getPendingTasks [lateHighPrio, earlyLowPrio] 10).length
      = min 10 (([lateHighPrio, earlyLowPrio]).filter
          (fun t => t.status = "pending")).length := by
  have h := C5_dequeue_amended [lateHighPrio, earlyLowPrio] 10
  exact ⟨by decide, h.1 lateHighPrio (by decide), h.2.1, h.2.2⟩

/-- Claim C6 (corrected) — counterexample.  The claim: claiming a task is a
compare-and-swap succeeding only if the status is still `pending`.
`mark_task_running` updates by id alone: applied to a task whose status is
`completed` (not `pending`), the update still goes through and the task
ends up `running`. -/
theorem C6_no_cas_counterexample :
    doneTask.status ≠ "pending"
  ∧ (markTaskRunning [doneTask] 1 99 none).map Task.status = ["running"] := by
  decide

/-- Claim C6 (corrected) — amended claim.  `mark_task_running` sets
`status = "running"` and `started_at` unconditionally on the row with the
given id, whatever its current status: there is no compare-and-swap guard,
so a lost race is not detected and concurrent claimers are not excluded. -/
theorem C6_claim_unconditional (tasks : List Task) (i : Nat) (now : Time)
    (url : Option String) (t : Task) (ht : t ∈ tasks) (hid : t.id = i) :
    { t with
      status := "running"
      startedAt := some now
      sourceUrl := if strTruthy url then url else t.sourceUrl } ∈
      markTaskRunning tasks i now url := by
  unfold markTaskRunning
  refine List.mem_map.mpr ⟨t, ht, ?_⟩
  simp [hid]

/-- Witness for C6's amended claim: the already-completed task is
"claimed" anyway. -/
theorem C6_claim_unconditional_witness :
    { doneTask with
      status := "running"
      startedAt := some (99 : Time)
      sourceUrl := if strTruthy none then none else doneTask.sourceUrl } ∈
      markTaskRunning [doneTask] 1 99 none :=
  C6_claim_unconditional [doneTask] 1 99 none doneTask (by decide) (by decide)

/-- Claim C7 (corrected) — counterexample.  The claim: terminal statuses are
immutable.  `execute_task` performs no status check: executed on the task
already `completed` at instant 10, it re-runs the pipeline and overwrites
the task's `completed_at` with the new instant 99 (after first forcing the
status through `running`). -/
theorem C7_terminal_counterexample :
    doneDb.tasks.map Task.status = ["completed"]
  ∧ doneDb.tasks.map Task.completedAt = [some 10]
  ∧ (executeTask okDeliver false (some 80) 0 0 doneDb 1 99).toOption.map
      (fun d => d.tasks.map Task.completedAt) = some [some 99] := by
  decide

/-- Claim C7 (corrected) — amended claim.  The scheduler's dequeue path
returns only `pending` rows, so the background pipeline never revisits a
terminal (`completed` / `failed`) task; but nothing guards terminal
statuses against the manual `execute_task` endpoint or the unconditional
`mark_*` updates, which rewrite them (see the counterexample). -/
theorem C7_terminal_amended (tasks : List Task) (limit : Nat) (t : Task)
    (h : t ∈ getPendingTasks tasks limit) :
    t.status ≠ "completed" ∧ t.status ≠ "failed" := by
  have hp := getPendingTasks_status tasks limit t h
  rw [hp]
  exact ⟨by decide, by decide⟩

/-- Witness for C7's amended claim at a concrete queue. -/
theorem C7_terminal_amended_witness :
    earlyLowPrio ∈ getPendingTasks [earlyLowPrio, doneTask] 10
  ∧ earlyLowPrio.status ≠ "completed" ∧ earlyLowPrio.status ≠ "failed" := by
  have h := C7_terminal_amended [earlyLowPrio, doneTask] 10 earlyLowPrio
    (by decide)
  exact ⟨by decide, h.1, h.2⟩

/-- Claim C8 (corrected) — counterexample.  The claim: a fallback observation
is distinguished from a genuinely fetched price by a source tag.  The
observation insert of `execute_task` writes only `product_id`, `price`,
`created_at`: a genuine fetch of 100 and a fallback from a last known
price of 100 (zero jitter draw) produce literally identical rows. -/
theorem C8_no_source_tag_counterexample :
    insertedObs 1 (some 100) none 0 0 300 = insertedObs 1 none (some 100) 0 0 300 := by
  norm_num [insertedObs, computedPrice, basePrice, jitterFactor]

/-- Claim C8 (corrected) — amended claim.  When the fetch yields no valid
price (`None`, or the falsy `0.0`), the price falls back to the last known
price with the synthetic jitter draw applied, or to the random seed price
when no prior observation exists; the stored row carries no source tag
(see the counterexample). -/
theorem C8_fallback_amended (fetched : Option Price) (lastPrice : Option Price)
    (seed jitter : Price) (hf : fetched = none ∨ fetched = some 0) :
    (∀ lp, lastPrice = some lp →
      computedPrice fetched lastPrice seed jitter = round2 (lp * (1 + jitter)))
  ∧ (lastPrice = none →
      computedPrice fetched lastPrice seed jitter
        = round2 (seed * (1 + jitter))) := by
  rcases hf with h | h <;> subst h <;>
    exact ⟨fun lp hlp => by simp [computedPrice, basePrice, jitterFactor, hlp],
      fun hl => by simp [computedPrice, basePrice, jitterFactor, hl]⟩

/-- Witness for C8's amended claim: a failed fetch with last known price
100 and a 3% jitter draw stores `round(100 * 1.03, 2) = 103`; with no
history it stores the seed with jitter. -/
theorem C8_fallback_amended_witness :
    computedPrice none (some 100) 77 (3 / 100) = round2 (100 * (1 + 3 / 100))
  ∧ computedPrice none none 77 (3 / 100) = round2 (77 * (1 + 3 / 100)) := by
  have h := C8_fallback_amended none (some 100) 77 (3 / 100) (Or.inl rfl)
  have h2 := C8_fallback_amended none none 77 (3 / 100) (Or.inl rfl)
  exact ⟨h.1 100 rfl, h2.2 rfl⟩

/-- Claim C9 (confirmed).  Manually retrying a recorded failed Alert Event
(whose attempt count is at least 1, whose owning alert exists and whose
product has a stored price) re-attempts delivery over the channel and
target resolved from the owning alert and appends one new event row
with `attempt = old + 1`, stamped at retry time; the pre-existing rows —
the original event among them — are left byte-for-byte unchanged. -/
theorem C9_retry_appends_incremented (deliver : Deliver) (db : DB) (i : Nat)
    (now : Time) (e : AlertEvent) (a : AlertRule) (row : PriceObs) (n : Nat)
    (he : db.events.find? (fun x => x.id = i) = some e)
    (_hst : e.status = "failed")
    (ha : db.alerts.find? (fun x => x.id = e.alertId) = some a)
    (hp : latestPriceRow db.prices e.productId = some row)
    (hn : e.attempt = n) (hn1 : 1 ≤ n) :
    ∃ ne,
      retryAlertEvent deliver db i now = Except.ok
        { db with
          pushes := db.pushes ++ (dispatchRetry deliver a.channel a.target
            e.userId e.productId row.price now db.pushes.length).push.toList
          events := db.events ++ [ne] }
      ∧ ne.attempt = n + 1
      ∧ ne.channel = a.channel
      ∧ ne.status = (dispatchRetry deliver a.channel a.target e.userId
          e.productId row.price now db.pushes.length).status
      ∧ ne.createdAt = now
      ∧ ne.price = row.price := by
  unfold retryAlertEvent
  rw [he]
  dsimp only
  rw [ha, hp]
  dsimp only
  refine ⟨_, rfl, ?_, rfl, rfl, rfl, rfl⟩
  rw [hn]
  have hz : ¬ n = 0 := by omega
  simp [hz]

/-- Witness for C9: retrying the failed email event (attempt 1) over a
still-failing SMTP appends one event with attempt 2 at the retry time,
keeping the original row intact. -/
theorem C9_retry_appends_incremented_witness :
    ∃ ne,
      retryAlertEvent failDeliver retryDb 1 200 = Except.ok
        { retryDb with
          pushes := retryDb.pushes ++ (dispatchRetry failDeliver
            emailRule.channel emailRule.target failedEvent.userId
            failedEvent.productId (80 : ℚ) 200 retryDb.pushes.length).push.toList
          events := retryDb.events ++ [ne] }
      ∧ ne.attempt = 1 + 1
      ∧ ne.channel = emailRule.channel
      ∧ ne.status = (dispatchRetry failDeliver emailRule.channel
          emailRule.target failedEvent.userId failedEvent.productId (80 : ℚ)
          200 retryDb.pushes.length).status
      ∧ ne.createdAt = 200
      ∧ ne.price = (80 : ℚ) :=
  C9_retry_appends_incremented failDeliver retryDb 1 200 failedEvent emailRule
    ⟨1, 80, 60⟩ 1 (by decide) rfl (by decide) (by decide) rfl (by decide)

/-- Claim C10 (corrected) — counterexample.  The claim: the retried
notification's price defaults to 0 when the product has no stored prices.
In the code, `price_rows[0]` on the empty result raises an `IndexError`
before anything is delivered or inserted: the retry operation fails with
an HTTP 500 instead of appending an event with price 0. -/
theorem C10_no_default_zero_counterexample :
    retryAlertEvent failDeliver retryDbNoPrices 1 200
      = Except.error "list index out of range" := by
  rfl

/-- Claim C10 (corrected) — amended claim.  The price recorded in the new
event row of a manual retry is the product's latest stored observation
price at retry time (not the price stored in the original event); when
the product has no stored prices the retry raises and appends nothing. -/
theorem C10_retry_price_amended (deliver : Deliver) :
    (∀ (db : DB) (i : Nat) (now : Time) (e : AlertEvent) (row : PriceObs),
      db.events.find? (fun x => x.id = i) = some e →
      latestPriceRow db.prices e.productId = some row →
      ∃ db2 ne, retryAlertEvent deliver db i now = Except.ok db2
        ∧ db2.events = db.events ++ [ne] ∧ ne.price = row.price)
  ∧ (∀ (db : DB) (i : Nat) (now : Time) (e : AlertEvent),
      db.events.find? (fun x => x.id = i) = some e →
      latestPriceRow db.prices e.productId = none →
      retryAlertEvent deliver db i now
        = Except.error "list index out of range") := by
  constructor
  · intro db i now e row he hp
    unfold retryAlertEvent
    rw [he]
    dsimp only
    rw [hp]
    exact ⟨_, _, rfl, rfl, rfl⟩
  · intro db i now e he hp
    unfold retryAlertEvent
    rw [he]
    dsimp only
    rw [hp]

/-- Witness for C10's amended claim: the retried event reports the latest
stored price 80 although the original event observed 100; on the
history-less store the retry errors out. -/
theorem C10_retry_price_amended_witness :
    (∃ db2 ne, retryAlertEvent failDeliver retryDb 1 200 = Except.ok db2
      ∧ db2.events = retryDb.events ++ [ne] ∧ ne.price = (80 : ℚ))
  ∧ retryAlertEvent failDeliver retryDbNoPrices 1 200
      = Except.error "list index out of range" := by
  have h := C10_retry_price_amended failDeliver
  refine ⟨?_, h.2 retryDbNoPrices 1 200 failedEvent (by decide) (by decide)⟩
  obtain ⟨db2, ne, h1, h2, h3⟩ :=
    h.1 retryDb 1 200 failedEvent ⟨1, 80, 60⟩ (by decide) (by decide)
  exact ⟨db2, ne, h1, h2, h3⟩

end PriceSpider
